import Mathlib

/-
  Verification development for ngx_brotli
  (src/static/ngx_http_brotli_static_module.c, a single file holding both
  the brotli_static content handler and the brotli filter module).

  Modelling conventions.
  * Bytes are Nat; header values, URIs and file contents are List Nat.
  * nginx stores every header value NUL-terminated (value.data[value.len] = 0).
    This matters because check_accept_encoding delegates the token search to
    the nginx core helper ngx_strcasestrn, which scans up to the NUL.  Reading
    a header value at or past offset value.len therefore yields byte 0.
  * The nginx core string helpers ngx_strcasestrn and ngx_strncasecmp are
    modelled from their implementations in nginx src/core/ngx_string.c.  In
    particular the third argument of ngx_strcasestrn is, by nginx convention,
    the needle length MINUS ONE: the helper matches the first needle byte and
    then compares n further bytes of the needle C-string, so passing the full
    needle length makes the needle's own NUL terminator participate in the
    comparison.
-/

/-- Byte of a header value at a given offset; offsets at or past the end read
the NUL terminator that nginx places after every header value (and reading a
byte of the empty tail is likewise 0). -/
def byteAt : List Nat → Nat → Nat
  | [], _ => 0
  | c :: _, 0 => c
  | _ :: t, i + 1 => byteAt t i

/-- ASCII lowercasing as in the nginx string helpers: bytes 65..90 (A-Z) get
bit 0x20 set, which on that range is the same as adding 32. -/
def lowc (c : Nat) : Nat := if 65 ≤ c ∧ c ≤ 90 then c + 32 else c

/-- Model of ngx_strncasecmp(s1, s2, n) from nginx src/core/ngx_string.c.
s1 is given as an offset into the header value v, s2 as the remaining needle
bytes (reading past the end of either list yields the NUL byte 0).  Up to n
byte pairs are compared case-insensitively; a NUL met on both sides stops the
comparison with result 0, a difference stops it with a nonzero result. -/
def ngx_strncasecmp (v : List Nat) (i : Nat) (s2 : List Nat) : Nat → Int
  | 0 => 0
  | n + 1 =>
    let c1 := lowc (byteAt v i)
    let c2 := lowc (byteAt s2 0)
    if c1 = c2 then
      if c1 ≠ 0 then ngx_strncasecmp v (i + 1) s2.tail n
      else 0
    else (c1 : Int) - (c2 : Int)

/-- Scanning loop of ngx_strcasestrn: starting at offset i, advance to the
next byte whose lowercased value equals c2 (the lowercased first needle
byte), returning none upon reaching the NUL terminator; on a hit, compare the
following n bytes with the rest of the needle s2t and either return the hit
position or keep scanning.  The fuel argument only bounds the scan; the
wrapper below supplies enough fuel to reach the terminator. -/
def strcasestrnAux (v : List Nat) (s2t : List Nat) (c2 n : Nat) : Nat → Nat → Option Nat
  | _, 0 => none
  | i, fuel + 1 =>
    let c0 := byteAt v i
    if c0 = 0 then none
    else if lowc c0 = c2 then
      if ngx_strncasecmp v (i + 1) s2t n = 0 then some i
      else strcasestrnAux v s2t c2 n (i + 1) fuel
    else strcasestrnAux v s2t c2 n (i + 1) fuel

/-- Model of ngx_strcasestrn(s1 + i, s2, n) from nginx src/core/ngx_string.c:
find the first occurrence, from offset i on, of the first needle byte
(case-insensitively) whose n following bytes also match the rest of the
needle C-string.  nginx callers pass n = needle length - 1; the module under
verification passes n = needle length (kEncodingLen = 2), which makes the
comparison include the needle's NUL and hence succeed only directly before
the value's own NUL terminator. -/
def ngx_strcasestrn (v : List Nat) (i : Nat) (s2 : List Nat) (n : Nat) : Option Nat :=
  strcasestrnAux v s2.tail (lowc (byteAt s2 0)) n i (v.length + 1 - i)

/-- Return codes used by the negotiation helpers (NGX_OK / NGX_DECLINED). -/
inductive NgxRet where
  | ok
  | declined
  deriving Repr, DecidableEq

/-- kEncoding, the token "br" from the source, as bytes. -/
def kEncoding : List Nat := [98, 114]

/-- kEncodingLen from the source (strlen of kEncoding). -/
def kEncodingLen : Nat := 2

/-- Space-skipping loops of check_accept_encoding
(while (cursor < end and star-cursor is a space) cursor++), with fuel. -/
def skipSpacesAux (v : List Nat) (len : Nat) : Nat → Nat → Nat
  | c, 0 => c
  | c, fuel + 1 => if c < len ∧ byteAt v c = 32 then skipSpacesAux v len (c + 1) fuel else c

/-- First offset at or after c that is len or holds a non-space byte. -/
def skipSpaces (v : List Nat) (len c : Nat) : Nat := skipSpacesAux v len c (len - c)

/-- Scan after a boundary-valid token occurrence, cursor standing right after
the token (lines 116-149 of the static module, identical in the filter
module): skip spaces; no ";" means an outright match (break, true); after ";"
require "q"/"Q", "=", then a leading "0" (each preceded by optional spaces,
anything else means break, true); after "q=0" an optional "." followed by up
to three fractional digits decides: a digit above "0" is a match (true), a
non-digit right after the "." or three zero digits or running out of digits
is NGX_DECLINED (false).  true = reach the break (NGX_OK), false = the
return NGX_DECLINED statements. -/
def qScan (v : List Nat) (len cursor : Nat) : Bool :=
  let c1 := skipSpaces v len cursor
  if c1 = len ∨ byteAt v c1 ≠ 59 then true
  else
    let c2 := skipSpaces v len (c1 + 1)
    if c2 = len ∨ (byteAt v c2 ≠ 113 ∧ byteAt v c2 ≠ 81) then true
    else
      let c3 := skipSpaces v len (c2 + 1)
      if c3 = len ∨ byteAt v c3 ≠ 61 then true
      else
        let c4 := skipSpaces v len (c3 + 1)
        if c4 = len ∨ byteAt v c4 ≠ 48 then true
        else
          let c5 := c4 + 1
          if c5 < len ∧ byteAt v c5 = 46 then
            let c6 := c5 + 1
            if c6 = len ∨ byteAt v c6 < 48 ∨ 57 < byteAt v c6 then false
            else if 48 < byteAt v c6 then true
            else
              let c7 := c6 + 1
              if c7 < len ∧ 48 ≤ byteAt v c7 ∧ byteAt v c7 ≤ 57 then
                if 48 < byteAt v c7 then true
                else
                  let c8 := c7 + 1
                  if c8 < len ∧ 48 ≤ byteAt v c8 ∧ byteAt v c8 ≤ 57 then
                    if 48 < byteAt v c8 then true else false
                  else false
              else false
          else false

/-- Search loop of check_accept_encoding (the while(1) at lines 100-150):
look for kEncoding with ngx_strcasestrn, check the before/after boundary
bytes (a failed boundary check continues the search right after the
occurrence), then let the q-value scan decide between NGX_OK (break) and
NGX_DECLINED.  The fuel bounds the number of occurrences tried; the wrapper
supplies more than the value length, which is ample since the cursor
advances by at least the token length per iteration. -/
def checkLoopAux (v : List Nat) (len : Nat) : Nat → Nat → NgxRet
  | _, 0 => .declined
  | cursor, fuel + 1 =>
    match ngx_strcasestrn v cursor kEncoding kEncodingLen with
    | none => .declined
    | some p =>
      let before := if p = 0 then 32 else byteAt v (p - 1)
      let cur := p + kEncodingLen
      let after := if len ≤ cur then 32 else byteAt v cur
      if before ≠ 44 ∧ before ≠ 32 then checkLoopAux v len cur fuel
      else if after ≠ 44 ∧ after ≠ 32 ∧ after ≠ 59 then checkLoopAux v len cur fuel
      else if qScan v len cur then .ok else .declined

/-- check_accept_encoding (static module lines 84-152; the filter module at
lines 616-684 holds a byte-identical copy, modelled by this one function).
The argument is the Accept-Encoding header value, none when the request has
no such header. -/
def check_accept_encoding (ae : Option (List Nat)) : NgxRet :=
  match ae with
  | none => .declined
  | some v =>
    if v.length < kEncodingLen then .declined
    else checkLoopAux v v.length 0 (v.length + 1)

/-
  The $brotli_ratio variable (ngx_http_brotli_ratio_variable, filter module
  lines 1129-1172).  The request context carries the success flag and the two
  byte counters; the variable is not_found (modelled as none) when there is
  no brotli context, the stream did not succeed, or no bytes were produced.
  bytes_in and bytes_out are size_t counters; the product bytes_in * 1000 is
  computed in uint64_t, hence the explicit reduction mod 2^64.
-/

/-- Fields of ngx_http_brotli_ctx_t that the ratio variable reads. -/
structure RatioCtx where
  success : Bool
  bytes_in : Nat
  bytes_out : Nat
  deriving Repr, DecidableEq

/-- Decimal digits (as ASCII bytes) of a Nat, as printed by ngx_sprintf %ui.
The fuel is the number itself plus one, enough for any digit count. -/
def decDigitsAux : Nat → Nat → List Nat
  | 0, _ => []
  | fuel + 1, n => if n < 10 then [48 + n] else decDigitsAux fuel (n / 10) ++ [48 + n % 10]

/-- ASCII decimal representation of a Nat (ngx_sprintf %ui). -/
def decDigits (n : Nat) : List Nat := decDigitsAux (n + 1) n

/-- ASCII decimal representation zero-padded to width 2 (ngx_sprintf %02ui);
the module only prints fractions below 100, so two digits always suffice. -/
def fmt2 (f : Nat) : List Nat := if f < 10 then [48, 48 + f] else decDigits f

/-- ngx_http_brotli_ratio_variable: none models v->not_found = 1, otherwise
the produced string bytes "ratio_int.ratio_frac" with the fraction printed
via %02ui.  scaled_ratio = (uint64_t)bytes_in * 1000 / bytes_out; the second
decimal place is rounded up when the third scaled digit is 5 or more, with
carry into the integer part when the fraction wraps at 100. -/
def ngx_http_brotli_ratio_variable (ctx : Option RatioCtx) : Option (List Nat) :=
  match ctx with
  | none => none
  | some c =>
    if c.success = false ∨ c.bytes_out = 0 then none
    else
      let scaled := c.bytes_in * 1000 % 2 ^ 64 / c.bytes_out
      let ri := scaled / 1000
      let rf := scaled / 10 % 100
      let p : Nat × Nat :=
        if 5 ≤ scaled % 10 then
          if 100 ≤ rf + 1 then (ri + 1, 0) else (ri, rf + 1)
        else (ri, rf)
      some (decDigits p.1 ++ [46] ++ fmt2 p.2)

/-
  The streaming compression filter (ngx_http_brotli_body_filter and
  ngx_http_brotli_filter_close, filter module lines 769-1106).

  The Brotli encoder is opaque: it is a type parameter E together with an
  EncoderModel of pure functions for the four libbrotli entry points the
  filter uses.  Every call the filter makes into the encoder library is
  recorded in a trace of EncOp values, so "the encoder is not touched" is the
  statement that the trace is empty.

  Buffers carry sizes, not bytes: ngx_buf_size(b) for the memory-based output
  buffer is last - pos, and downstream consumption advances pos.  Input
  buffers carry their remaining size plus the last_buf / flush markers.  The
  downstream body filter (ngx_http_next_body_filter) is an oracle script: one
  NextResp per call, giving the return code and how many bytes the downstream
  drained from the shared output buffer during the call; an exhausted script
  answers NGX_OK with no progress.  The per-connection
  NGX_HTTP_BROTLI_BUFFERED bit is the conn_buffered field.
-/

/-- BROTLI_OPERATION_PROCESS / FLUSH / FINISH. -/
inductive BrotliOp where
  | process
  | flush
  | finish
  deriving Repr, DecidableEq

/-- Encoder library calls the filter can make, for the call trace. -/
inductive EncOp where
  | takeOutput
  | compress (op : BrotliOp)
  | destroy
  deriving Repr, DecidableEq

/-- Result codes of a body filter invocation (NGX_OK / NGX_AGAIN / NGX_ERROR). -/
inductive NextRc where
  | ok
  | again
  | error
  deriving Repr, DecidableEq

/-- One downstream call outcome: its return code and the number of bytes it
drained from the staged output buffer while the call ran. -/
structure NextResp where
  rc : NextRc
  consumed : Nat
  deriving Repr, DecidableEq

/-- The single reusable output buffer (ctx->out_buf): a window [pos, last)
into encoder-owned memory, plus the last_buf / flush stamps. -/
structure OutBuf where
  pos : Nat
  last : Nat
  last_buf : Bool
  flush : Bool
  deriving Repr, DecidableEq

/-- ngx_buf_size for the (memory) output buffer. -/
def OutBuf.size (b : OutBuf) : Nat := b.last - b.pos

/-- Downstream progress on the shared output buffer: pos advances by the
drained amount, never past last. -/
def drainOut (b : OutBuf) (k : Nat) : OutBuf := { b with pos := min (b.pos + k) b.last }

/-- An input chain link (remaining payload size and its markers). -/
structure InBuf where
  size : Nat
  last_buf : Bool
  flush : Bool
  deriving Repr, DecidableEq

/-- Pure model of the libbrotli encoder interface used by the filter.
compressStream returns none for BROTLI_FALSE and otherwise the new encoder
state and the number of input bytes consumed; takeOutput returns the new
state and the size of the returned extent (0 standing for a NULL return or
an empty extent, the failure case in the filter). -/
structure EncoderModel (E : Type) where
  hasMoreOutput : E → Bool
  isFinished : E → Bool
  takeOutput : E → E × Nat
  compressStream : E → BrotliOp → Nat → Option (E × Nat)

/-- ngx_http_brotli_ctx_t, with the encoder pointer as an Option and the
per-connection NGX_HTTP_BROTLI_BUFFERED bit carried along. -/
structure BrotliCtx (E : Type) where
  encoder : Option E
  bytes_in : Nat
  bytes_out : Nat
  in_chain : List InBuf
  out_buf : OutBuf
  initialized : Bool
  closed : Bool
  success : Bool
  output_ready : Bool
  output_busy : Bool
  end_of_input : Bool
  end_of_block : Bool
  conn_buffered : Bool

/-- ngx_http_brotli_filter_close (lines 1081-1106): a second call returns at
once via the closed flag; otherwise the flag is set and the encoder, when
present, is destroyed (recorded in the returned trace) and the pointer
cleared.  The out_chain / out_buf pointers are pool-owned and merely
nullified in the source; that nullification has no observable effect here. -/
def ngx_http_brotli_filter_close (ctx : BrotliCtx E) : BrotliCtx E × List EncOp :=
  if ctx.closed then (ctx, [])
  else
    match ctx.encoder with
    | some _ => ({ ctx with closed := true, encoder := none }, [.destroy])
    | none => ({ ctx with closed := true }, [])

/-- Result of one body filter invocation: return code, new context, and the
trace of encoder library calls made during the invocation. -/
structure BodyRes (E : Type) where
  rc : NextRc
  ctx : BrotliCtx E
  trace : List EncOp

/-- The main loop of ngx_http_brotli_body_filter (lines 812-973), fueled.
e is the live encoder instance (the context invariant encoder = some e is
re-established at every exit).  Each iteration follows the source order:
drain staged output first (and do not touch the encoder while the downstream
makes no progress on a busy buffer), then pull encoder output, then check
for completion, then force a finish, then feed queued input. -/
def bodyLoop (enc : EncoderModel E) : Nat → E → BrotliCtx E → List NextResp → List EncOp → BodyRes E
  | 0, e, ctx, _, tr => ⟨.error, { ctx with encoder := some e }, tr⟩
  | fuel + 1, e, ctx, script, tr =>
    if ctx.output_busy || ctx.output_ready then
      let available_busy : Nat := if ctx.output_busy then ctx.out_buf.size else 0
      let resp := script.headD ⟨.ok, 0⟩
      let rest := script.tail
      let ctx1 := { ctx with out_buf := drainOut ctx.out_buf resp.consumed }
      let ctx2 :=
        if ctx1.output_ready then { ctx1 with output_ready := false, output_busy := true }
        else ctx1
      let ctx3 := if ctx2.out_buf.size = 0 then { ctx2 with output_busy := false } else ctx2
      match resp.rc with
      | .ok =>
        if ctx3.output_busy = true ∧ available_busy = ctx3.out_buf.size then
          ⟨.again, { ctx3 with conn_buffered := true, encoder := some e }, tr⟩
        else bodyLoop enc fuel e ctx3 rest tr
      | .again =>
        if ctx3.output_busy then
          ⟨.again, { ctx3 with
              conn_buffered := if ctx3.in_chain ≠ [] then true else ctx3.conn_buffered,
              encoder := some e }, tr⟩
        else bodyLoop enc fuel e ctx3 rest tr
      | .error =>
        let cl := ngx_http_brotli_filter_close { ctx3 with encoder := some e }
        ⟨.error, cl.1, tr ++ cl.2⟩
    else if enc.hasMoreOutput e then
      let t := enc.takeOutput e
      let tr1 := tr ++ [EncOp.takeOutput]
      if t.2 = 0 then
        let cl := ngx_http_brotli_filter_close { ctx with encoder := some t.1 }
        ⟨.error, cl.1, tr1 ++ cl.2⟩
      else
        let ob : OutBuf := { pos := 0, last := t.2, last_buf := false, flush := false }
        let ctx1 := { ctx with out_buf := ob, bytes_out := ctx.bytes_out + t.2 }
        let ctx2 :=
          if ctx1.end_of_input = true ∧ enc.isFinished t.1 = true then
            { ctx1 with out_buf := { ob with last_buf := true }, conn_buffered := false }
          else if ctx1.end_of_block = true then
            { ctx1 with out_buf := { ob with flush := true }, conn_buffered := false }
          else ctx1
        let ctx3 := { ctx2 with end_of_block := false, output_ready := true }
        bodyLoop enc fuel t.1 ctx3 script tr1
    else if enc.isFinished e then
      let ctx1 := { ctx with success := true, conn_buffered := false }
      let cl := ngx_http_brotli_filter_close { ctx1 with encoder := some e }
      ⟨.ok, cl.1, tr ++ cl.2⟩
    else if ctx.end_of_input then
      let tr1 := tr ++ [EncOp.compress .finish]
      match enc.compressStream e .finish 0 with
      | none =>
        let cl := ngx_http_brotli_filter_close { ctx with conn_buffered := true, encoder := some e }
        ⟨.error, cl.1, tr1 ++ cl.2⟩
      | some pr =>
        bodyLoop enc fuel pr.1 { ctx with conn_buffered := true } script tr1
    else
      match ctx.in_chain with
      | [] => ⟨.ok, { ctx with encoder := some e }, tr⟩
      | b :: restIn =>
        let input_size := b.size
        if input_size = 0 ∧ b.last_buf = false ∧ b.flush = false then
          bodyLoop enc fuel e { ctx with in_chain := restIn } script tr
        else
          let op : BrotliOp := if b.last_buf then .finish else if b.flush then .flush else .process
          let tr1 := tr ++ [EncOp.compress op]
          match enc.compressStream e op input_size with
          | none =>
            let cl :=
              ngx_http_brotli_filter_close { ctx with conn_buffered := true, encoder := some e }
            ⟨.error, cl.1, tr1 ++ cl.2⟩
          | some pr =>
            let consumed := min pr.2 input_size
            let ctx1 := { ctx with conn_buffered := true, bytes_in := ctx.bytes_in + consumed }
            if consumed = input_size then
              let ctx2 :=
                if b.last_buf then { ctx1 with end_of_input := true }
                else if b.flush then { ctx1 with end_of_block := true }
                else ctx1
              bodyLoop enc fuel pr.1 { ctx2 with in_chain := restIn } script tr1
            else
              let b1 := { b with size := input_size - consumed }
              bodyLoop enc fuel pr.1 { ctx1 with in_chain := b1 :: restIn } script tr1

/-- ngx_http_brotli_filter_ensure_stream_initialized (lines 980-1055),
with encoder creation and parameter setting collapsed into the create
argument (none = creation or configuration failed, NGX_ERROR).  On first
entry the initialized flag is set, the encoder created and the empty output
buffer and chain link allocated; later entries return NGX_OK directly. -/
def ensure_stream_initialized (create : Option E) (ctx : BrotliCtx E) : BrotliCtx E × Bool :=
  if ctx.initialized then (ctx, true)
  else
    let ctx1 := { ctx with initialized := true }
    match create with
    | none => (ctx1, false)
    | some e0 =>
      ({ ctx1 with encoder := some e0,
                   out_buf := { pos := 0, last := 0, last_buf := false, flush := false } }, true)

/-- ngx_http_brotli_body_filter (lines 769-978).  A closed context or a
header-only request passes the incoming chain straight to the next filter
(one script entry, no encoder call).  Otherwise the stream is initialized if
necessary (failure closes the context and yields NGX_ERROR), the incoming
chain links are appended to ctx->in (ngx_chain_add_copy preserves order) and
the buffered bit is set, and the main loop runs. -/
def ngx_http_brotli_body_filter (enc : EncoderModel E) (create : Option E) (header_only : Bool)
    (ctx : BrotliCtx E) (incoming : Option (List InBuf)) (script : List NextResp)
    (fuel : Nat) : BodyRes E :=
  if ctx.closed || header_only then ⟨(script.headD ⟨.ok, 0⟩).rc, ctx, []⟩
  else
    let ini := ensure_stream_initialized create ctx
    if ini.2 = false then
      let cl := ngx_http_brotli_filter_close ini.1
      ⟨.error, cl.1, cl.2⟩
    else
      match ini.1.encoder with
      | none =>
        let cl := ngx_http_brotli_filter_close ini.1
        ⟨.error, cl.1, cl.2⟩
      | some e =>
        let ctx1 :=
          match incoming with
          | none => ini.1
          | some bufs =>
            { ini.1 with in_chain := ini.1.in_chain ++ bufs, conn_buffered := true }
        bodyLoop enc fuel e ctx1 script []

/-
  The brotli_static content handler (static module lines 155-412) and the
  negotiation entry points of both modules.

  The request carries the fields the handler and the checks read or write.
  Host collaborators (path mapping, open_cached_file, etag, content type,
  allocation and I/O results) are an oracle record; note that
  ngx_http_set_content_type derives the MIME type from r->exten, which comes
  from the ORIGINAL request URI - the ".br"-suffixed path built by the
  handler never feeds into it - so the content type oracle is applied to
  req.uri.
-/

/-- NGX_HTTP_GET as in nginx. -/
def NGX_HTTP_GET : Nat := 2

/-- NGX_HTTP_HEAD as in nginx. -/
def NGX_HTTP_HEAD : Nat := 4

/-- kSuffix ".br" from the static module, as bytes. -/
def kSuffix : List Nat := [46, 98, 114]

/-- The ngx_http_request_t fields used by the static module.  is_main models
req == req->main. -/
structure StaticRequest where
  method : Nat
  uri : List Nat
  is_main : Bool
  accept_encoding : Option (List Nat)
  gzip_vary : Bool
  gzip_tested : Bool
  gzip_ok : Bool
  error_page : Bool
  root_tested : Bool
  header_only : Bool

/-- check_eligility (static module lines 155-161): subrequests are declined
outright; then the Accept-Encoding check decides; on success the
gzip_tested / gzip_ok markers are set. -/
def check_eligility (req : StaticRequest) : NgxRet × StaticRequest :=
  if req.is_main = false then (.declined, req)
  else if check_accept_encoding req.accept_encoding ≠ .ok then (.declined, req)
  else (.ok, { req with gzip_tested := true, gzip_ok := false })

/-- Error kinds of ngx_open_cached_file as the handler distinguishes them
(the switch at lines 254-277); zero models the err == 0 case. -/
inductive OpenErrKind where
  | zero
  | enoent
  | enotdir
  | enametoolong
  | emlink
  | eloop
  | eacces
  | other
  deriving Repr, DecidableEq

/-- Result of ngx_open_cached_file: the file metadata and contents, or an
error kind.  The size reported by the cache is the content length. -/
inductive OpenRes where
  | ok (contents : List Nat) (mtime : Int) (is_dir : Bool) (is_file : Bool)
  | err (kind : OpenErrKind)

/-- Host collaborators of the static handler.  Option results model NULL
returns / non-NGX_OK codes of the corresponding nginx calls; the *_ok flags
model allocation or call success; send_header_rc and output_filter_rc are
the downstream return codes (0 = NGX_OK, -1 = NGX_ERROR, positive = special
response). -/
structure StaticHost where
  map_uri_to_path : List Nat → Option (List Nat)
  disable_symlinks_ok : Bool
  open_cached_file : List Nat → OpenRes
  discard_request_body_rc : Int
  set_etag_ok : Bool
  etag_of : Nat → Int → List Nat
  set_content_type_ok : Bool
  content_type_of : List Nat → List Nat
  push_header_ok : Bool
  alloc_buf_ok : Bool
  send_header_rc : Int
  output_filter_rc : Int

/-- The response the handler emits on the success path. -/
structure BrResponse where
  status : Nat
  content_length : Nat
  last_modified : Int
  etag : List Nat
  content_encoding : List Nat
  content_type : List Nat
  body : List Nat

/-- Outcome of the handler: NGX_DECLINED, NGX_HTTP_INTERNAL_SERVER_ERROR,
NGX_HTTP_NOT_FOUND, a propagated return code (discard body, or send_header
when the response ends after the header), or a fully served response whose
code is the ngx_http_output_filter result. -/
inductive HandlerRes where
  | declined
  | internalError
  | notFound
  | retCode (code : Int)
  | headerSent (resp : BrResponse) (code : Int)
  | served (resp : BrResponse) (code : Int)

/-- Handler outcome together with the final request state and, as soon as the
handler consulted the file cache, the path it tried to open. -/
structure ServeOut where
  res : HandlerRes
  req : StaticRequest
  opened : Option (List Nat)

/-- Lines 195-384 of the handler: map the URI, append kSuffix, configure
symlink handling, open the sibling through the file cache and dispatch on
the outcome; on a regular file fill headers_out (status NGX_HTTP_OK,
content_length_n = size, last_modified_time = mtime), set the etag from that
metadata and the content type from the original URI, add the
Content-Encoding: br header and send the file bytes as the body. -/
def serveSibling (host : StaticHost) (req : StaticRequest) : ServeOut :=
  match host.map_uri_to_path req.uri with
  | none => ⟨.internalError, req, none⟩
  | some p =>
    if host.disable_symlinks_ok = false then ⟨.internalError, req, none⟩
    else
      match host.open_cached_file (p ++ kSuffix) with
      | .err k =>
        if k = .zero then ⟨.internalError, req, some (p ++ kSuffix)⟩
        else ⟨.declined, req, some (p ++ kSuffix)⟩
      | .ok contents mtime is_dir is_file =>
        if is_dir then ⟨.declined, req, some (p ++ kSuffix)⟩
        else if is_file = false then ⟨.notFound, req, some (p ++ kSuffix)⟩
        else if host.discard_request_body_rc ≠ 0 then
          ⟨.retCode host.discard_request_body_rc,
            { req with root_tested := !req.error_page }, some (p ++ kSuffix)⟩
        else if host.set_etag_ok = false then
          ⟨.internalError, { req with root_tested := !req.error_page }, some (p ++ kSuffix)⟩
        else if host.set_content_type_ok = false then
          ⟨.internalError, { req with root_tested := !req.error_page }, some (p ++ kSuffix)⟩
        else if host.push_header_ok = false then
          ⟨.internalError, { req with root_tested := !req.error_page }, some (p ++ kSuffix)⟩
        else if host.alloc_buf_ok = false then
          ⟨.internalError, { req with root_tested := !req.error_page }, some (p ++ kSuffix)⟩
        else if host.send_header_rc = -1 ∨ 0 < host.send_header_rc ∨ req.header_only then
          ⟨.headerSent
              { status := 200
                content_length := contents.length
                last_modified := mtime
                etag := host.etag_of contents.length mtime
                content_encoding := kEncoding
                content_type := host.content_type_of req.uri
                body := contents }
              host.send_header_rc,
            { req with root_tested := !req.error_page }, some (p ++ kSuffix)⟩
        else
          ⟨.served
              { status := 200
                content_length := contents.length
                last_modified := mtime
                etag := host.etag_of contents.length mtime
                content_encoding := kEncoding
                content_type := host.content_type_of req.uri
                body := contents }
              host.output_filter_rc,
            { req with root_tested := !req.error_page }, some (p ++ kSuffix)⟩

/-- brotli_static configuration values (NGX_HTTP_BROTLI_STATIC_OFF / ON /
ALWAYS). -/
def BROTLI_STATIC_OFF : Nat := 0

/-- brotli_static on. -/
def BROTLI_STATIC_ON : Nat := 1

/-- brotli_static always. -/
def BROTLI_STATIC_ALWAYS : Nat := 2

/-- handler (static module lines 163-385): only GET/HEAD, only non-directory
URIs, nothing when the module is off; in "always" mode request properties
(Accept-Encoding) are ignored, otherwise gzip_vary is set and
check_eligility must accept; then the sibling is mapped, opened and
served. -/
def handler (enable : Nat) (host : StaticHost) (req : StaticRequest) : ServeOut :=
  if req.method &&& (NGX_HTTP_GET ||| NGX_HTTP_HEAD) = 0 then ⟨.declined, req, none⟩
  else if byteAt req.uri (req.uri.length - 1) = 47 then ⟨.declined, req, none⟩
  else if enable = BROTLI_STATIC_OFF then ⟨.declined, req, none⟩
  else if enable = BROTLI_STATIC_ALWAYS then serveSibling host req
  else if (check_eligility { req with gzip_vary := true }).1 ≠ .ok then
    ⟨.declined, (check_eligility { req with gzip_vary := true }).2, none⟩
  else serveSibling host (check_eligility { req with gzip_vary := true }).2

/-
  The brotli filter module header path: ngx_http_brotli_check_request
  (lines 1108-1114) and ngx_http_brotli_header_filter (lines 687-766).
-/

/-- The ngx_http_request_t fields used by the filter module header path.
ce_present models headers_out.content_encoding being set with a non-empty
value. -/
structure FilterRequest where
  is_main : Bool
  accept_encoding : Option (List Nat)
  gzip_vary : Bool
  gzip_tested : Bool
  gzip_ok : Bool
  status : Nat
  header_only : Bool
  ce_present : Bool
  content_length_n : Int

/-- ngx_http_brotli_check_request (lines 1108-1114): textually the same
gate as check_eligility, on the filter module side. -/
def ngx_http_brotli_check_request (r : FilterRequest) : NgxRet × FilterRequest :=
  if r.is_main = false then (.declined, r)
  else if check_accept_encoding r.accept_encoding ≠ .ok then (.declined, r)
  else (.ok, { r with gzip_tested := true, gzip_ok := false })

/-- brotli filter configuration fields the header filter reads. -/
structure FilterConf where
  enable : Bool
  min_length : Int

/-- Outcome of the header filter: hand the headers to the next filter
unchanged (pass), fail on allocation (error), or set the response up for
compression (setup: Content-Encoding br pushed, content length cleared,
etag weakened, context installed). -/
inductive HdrRes where
  | pass
  | error
  | setup
  deriving Repr, DecidableEq

/-- ngx_http_brotli_header_filter (lines 687-766).  type_ok is the
ngx_http_test_content_type result, alloc_ok covers the context and header
allocations.  gzip_vary is set before the client support check, so it stays
set when ngx_http_brotli_check_request declines. -/
def ngx_http_brotli_header_filter (conf : FilterConf) (type_ok alloc_ok : Bool)
    (r : FilterRequest) : HdrRes × FilterRequest :=
  if conf.enable = false then (.pass, r)
  else if r.status ≠ 200 ∧ r.status ≠ 403 ∧ r.status ≠ 404 then (.pass, r)
  else if r.header_only then (.pass, r)
  else if r.ce_present then (.pass, r)
  else if r.content_length_n ≠ -1 ∧ r.content_length_n < conf.min_length then (.pass, r)
  else if type_ok = false then (.pass, r)
  else if (ngx_http_brotli_check_request { r with gzip_vary := true }).1 ≠ .ok then
    (.pass, (ngx_http_brotli_check_request { r with gzip_vary := true }).2)
  else if alloc_ok = false then
    (.error, (ngx_http_brotli_check_request { r with gzip_vary := true }).2)
  else
    (.setup, { (ngx_http_brotli_check_request { r with gzip_vary := true }).2 with
        ce_present := true, content_length_n := -1 })

/-
  Shared arithmetic and rounding lemmas.
-/

/-- The rounding performed on (ratio_int, ratio_frac) equals splitting the
half-up-rounded two-decimal scaling (s + 5) / 10 into hundreds and
remainder. -/
theorem ratioPair_eq (s : Nat) :
    (if 5 ≤ s % 10 then
       if 100 ≤ s / 10 % 100 + 1 then (s / 1000 + 1, 0) else (s / 1000, s / 10 % 100 + 1)
     else (s / 1000, s / 10 % 100)) = ((s + 5) / 10 / 100, (s + 5) / 10 % 100) := by
  rw [Nat.div_div_eq_div_mul]
  split_ifs with ha hb
  · simp only [Prod.mk.injEq]
    constructor <;> omega
  · simp only [Prod.mk.injEq]
    constructor <;> omega
  · simp only [Prod.mk.injEq]
    constructor <;> omega

/-- Reading at or past the end of the value yields the NUL terminator. -/
theorem byteAt_zero_of_le (v : List Nat) : ∀ i, v.length ≤ i → byteAt v i = 0 := by
  induction v with
  | nil => intro i _; cases i <;> rfl
  | cons c t ih =>
    intro i h
    cases i with
    | zero => simp at h
    | succ j => exact ih j (by simpa using h)

/-- Reading inside the value yields one of its bytes. -/
theorem byteAt_mem (v : List Nat) : ∀ i, i < v.length → byteAt v i ∈ v := by
  induction v with
  | nil => intro i h; simp at h
  | cons c t ih =>
    intro i h
    cases i with
    | zero => exact List.mem_cons_self c t
    | succ j => exact List.mem_cons_of_mem c (ih j (by simpa using h))

/-- Lowercasing never creates or destroys NUL. -/
theorem lowc_eq_zero (c : Nat) : lowc c = 0 ↔ c = 0 := by
  unfold lowc
  split <;> omega

/-- The tail comparison ngx_strcasestrn performs after matching the leading
"b": with needle tail "r" and n = kEncodingLen = 2, it succeeds exactly when
the next byte lowercases to "r" and the byte after that is NUL - the needle
C-string's own terminator takes part in the comparison. -/
theorem ngx_strncasecmp_br_tail (v : List Nat) (j : Nat) :
    ngx_strncasecmp v j [114] 2 = 0 ↔ (lowc (byteAt v j) = 114 ∧ byteAt v (j + 1) = 0) := by
  have l114 : lowc 114 = 114 := by decide
  have l0 : lowc 0 = 0 := by decide
  rw [← lowc_eq_zero (byteAt v (j + 1))]
  simp only [ngx_strncasecmp, byteAt, List.tail_cons, l114, l0]
  generalize lowc (byteAt v j) = a
  generalize lowc (byteAt v (j + 1)) = b
  split_ifs <;> omega

/-- Full description of the scan with needle "br" and n = 2: on a
NUL-free value the needle's NUL can only coincide with the value's
terminator, so the one possible hit is at offset length - 2, reached exactly
when the value ends with "br" (case-insensitively) and the scan starts at or
before that offset. -/
theorem strcasestrnAux_spec (v : List Nat) (h0 : ∀ b ∈ v, b ≠ 0) :
    ∀ (fuel i : Nat), v.length + 1 ≤ fuel + i →
      strcasestrnAux v [114] 98 2 i fuel =
        if i + 2 ≤ v.length ∧ lowc (byteAt v (v.length - 2)) = 98
             ∧ lowc (byteAt v (v.length - 1)) = 114
        then some (v.length - 2) else none := by
  intro fuel
  induction fuel with
  | zero =>
    intro i hi
    rw [show strcasestrnAux v [114] 98 2 i 0 = none from rfl,
      if_neg (fun h => absurd h.1 (by omega))]
  | succ f ih =>
    intro i hi
    simp only [strcasestrnAux]
    rcases Nat.lt_or_ge i v.length with hin | hin
    · have hb0 : byteAt v i ≠ 0 := h0 _ (byteAt_mem v i hin)
      rw [if_neg hb0]
      by_cases hc : lowc (byteAt v i) = 98
      · rw [if_pos hc]
        by_cases hm : ngx_strncasecmp v (i + 1) [114] 2 = 0
        · rw [if_pos hm]
          obtain ⟨h114, hz⟩ := (ngx_strncasecmp_br_tail v (i + 1)).mp hm
          have h2 : v.length ≤ i + 2 := by
            by_contra hlt
            push_neg at hlt
            exact h0 _ (byteAt_mem v (i + 2) hlt) hz
          have h1 : i + 1 < v.length := by
            by_contra hge
            push_neg at hge
            rw [byteAt_zero_of_le v (i + 1) hge] at h114
            simp [lowc] at h114
          have heq : v.length = i + 2 := by omega
          rw [heq]
          rw [if_pos ⟨by omega, by simpa using hc, by simpa using h114⟩]
          simp
        · rw [if_neg hm]
          rw [ih (i + 1) (by omega)]
          by_cases hcnd : i + 2 ≤ v.length ∧ lowc (byteAt v (v.length - 2)) = 98
              ∧ lowc (byteAt v (v.length - 1)) = 114
          · obtain ⟨hA, hB, hC⟩ := hcnd
            by_cases hstep : i + 3 ≤ v.length
            · rw [if_pos ⟨by omega, hB, hC⟩, if_pos ⟨hA, hB, hC⟩]
            · exfalso
              apply hm
              apply (ngx_strncasecmp_br_tail v (i + 1)).mpr
              refine ⟨?_, byteAt_zero_of_le v (i + 2) (by omega)⟩
              have hidx : v.length - 1 = i + 1 := by omega
              rw [← hidx]
              exact hC
          · rw [if_neg (fun h => hcnd ⟨by omega, h.2.1, h.2.2⟩), if_neg hcnd]
      · rw [if_neg hc]
        rw [ih (i + 1) (by omega)]
        by_cases hcnd : i + 2 ≤ v.length ∧ lowc (byteAt v (v.length - 2)) = 98
            ∧ lowc (byteAt v (v.length - 1)) = 114
        · obtain ⟨hA, hB, hC⟩ := hcnd
          by_cases hstep : i + 3 ≤ v.length
          · rw [if_pos ⟨by omega, hB, hC⟩, if_pos ⟨hA, hB, hC⟩]
          · exfalso
            apply hc
            have hidx : v.length - 2 = i := by omega
            rw [← hidx]
            exact hB
        · rw [if_neg (fun h => hcnd ⟨by omega, h.2.1, h.2.2⟩), if_neg hcnd]
    · rw [if_pos (byteAt_zero_of_le v i hin)]
      rw [if_neg (fun h => absurd h.1 (by omega))]

/-- ngx_strcasestrn as called by check_accept_encoding (needle kEncoding,
n = kEncodingLen): the only possible hit is the value's trailing "br". -/
theorem ngx_strcasestrn_br (v : List Nat) (h0 : ∀ b ∈ v, b ≠ 0) (i : Nat) :
    ngx_strcasestrn v i kEncoding kEncodingLen =
      if i + 2 ≤ v.length ∧ lowc (byteAt v (v.length - 2)) = 98
           ∧ lowc (byteAt v (v.length - 1)) = 114
      then some (v.length - 2) else none := by
  unfold ngx_strcasestrn
  rw [show kEncoding.tail = [114] from rfl, show lowc (byteAt kEncoding 0) = 98 from by decide,
    show kEncodingLen = 2 from rfl]
  rcases le_or_lt i (v.length + 1) with hi | hi
  · exact strcasestrnAux_spec v h0 (v.length + 1 - i) i (by omega)
  · rw [show v.length + 1 - i = 0 from by omega]
    rw [show strcasestrnAux v [114] 98 2 i 0 = none from rfl,
      if_neg (fun h => absurd h.1 (by omega))]

/-- The acceptance condition check_accept_encoding actually implements: the
header value ends with "br" (case-insensitively) and that trailing token is
preceded by start-of-value, a space or a comma. -/
def brTokenAtEnd (v : List Nat) : Prop :=
  2 ≤ v.length ∧ lowc (byteAt v (v.length - 2)) = 98 ∧ lowc (byteAt v (v.length - 1)) = 114 ∧
    (v.length = 2 ∨ byteAt v (v.length - 3) = 32 ∨ byteAt v (v.length - 3) = 44)

/-
  Claim theorems.
-/

/-- C3 amended: acceptance never arises from a q-value clause.  On a NUL-free
header value the check accepts exactly when the value ends with the token
"br" (case-insensitively) preceded by start-of-value, space or comma; any
occurrence followed by further header text - in particular by any q-value
clause such as ";q=0.0001" or ";q=0.5" - cannot be the match, because the
search (called with n = kEncodingLen) requires the NUL terminator right
after the token. -/
theorem c3_amended_accept_iff_trailing_token (v : List Nat) (h0 : ∀ b ∈ v, b ≠ 0) :
    check_accept_encoding (some v) = .ok ↔ brTokenAtEnd v := by
  simp only [check_accept_encoding]
  by_cases hlen : v.length < kEncodingLen
  · rw [if_pos hlen]
    simp only [kEncodingLen] at hlen
    constructor
    · intro h
      exact absurd h (by decide)
    · intro hb
      exact absurd hb.1 (by omega)
  · rw [if_neg hlen]
    simp only [kEncodingLen] at hlen
    push_neg at hlen
    simp only [checkLoopAux]
    have hscrut := ngx_strcasestrn_br v h0 0
    by_cases hend : lowc (byteAt v (v.length - 2)) = 98 ∧ lowc (byteAt v (v.length - 1)) = 114
    · rw [if_pos ⟨by omega, hend.1, hend.2⟩] at hscrut
      simp only [hscrut]
      have hcur : v.length - 2 + kEncodingLen = v.length := by
        simp only [kEncodingLen]
        omega
      rw [hcur]
      by_cases hbnd : (if v.length - 2 = 0 then 32 else byteAt v (v.length - 2 - 1)) ≠ 44 ∧
          (if v.length - 2 = 0 then 32 else byteAt v (v.length - 2 - 1)) ≠ 32
      · rw [if_pos hbnd]
        have hnone : ngx_strcasestrn v v.length kEncoding kEncodingLen = none := by
          rw [ngx_strcasestrn_br v h0]
          exact if_neg (fun h => absurd h.1 (by omega))
        obtain ⟨f, hf⟩ : ∃ f, v.length = f + 1 := ⟨v.length - 1, by omega⟩
        rw [hf] at hnone
        rw [hf]
        simp only [checkLoopAux, hnone]
        constructor
        · intro h
          exact absurd h (by decide)
        · intro hb
          exfalso
          obtain ⟨_, _, _, hd⟩ := hb
          by_cases h20 : v.length - 2 = 0
          · rw [if_pos h20] at hbnd
            exact hbnd.2 rfl
          · rw [if_neg h20] at hbnd
            have hidx : v.length - 2 - 1 = v.length - 3 := by omega
            rw [hidx] at hbnd
            rcases hd with hd | hd | hd
            · exact h20 (by omega)
            · exact hbnd.2 hd
            · exact hbnd.1 hd
      · rw [if_neg hbnd]
        rw [if_pos (le_refl v.length)]
        rw [if_neg (by simp)]
        have hskip : skipSpaces v v.length v.length = v.length := by
          unfold skipSpaces
          rw [Nat.sub_self]
          rfl
        have hq : qScan v v.length v.length = true := by
          unfold qScan
          rw [hskip]
          rw [if_pos (Or.inl rfl)]
        rw [hq, if_pos rfl]
        constructor
        · intro _
          refine ⟨by omega, hend.1, hend.2, ?_⟩
          by_cases h20 : v.length - 2 = 0
          · exact Or.inl (by omega)
          · rw [if_neg h20] at hbnd
            have hidx : v.length - 2 - 1 = v.length - 3 := by omega
            rw [hidx] at hbnd
            rcases Decidable.not_and_iff_or_not.mp hbnd with hb | hb
            · exact Or.inr (Or.inr (Decidable.not_not.mp hb))
            · exact Or.inr (Or.inl (Decidable.not_not.mp hb))
        · intro _
          rfl
    · rw [if_neg (fun h => hend ⟨h.2.1, h.2.2⟩)] at hscrut
      simp only [hscrut]
      constructor
      · intro h
        exact absurd h (by decide)
      · intro hb
        exact absurd ⟨hb.2.1, hb.2.2.1⟩ hend

/-- C1: behaviour of check_accept_encoding on the inputs enumerated by the
claim.  The code accepts "br" and "gzip;q=0, br" and rejects the absent
header and all the q=0 spellings, but it also rejects "br;q=1", "br;q=0.5",
"br;q=0.001" and "br, gzip", which the claim says must be accepted: because
kEncodingLen (2) rather than kEncodingLen - 1 is passed to ngx_strcasestrn,
the token only matches when the NUL terminator follows it, i.e. at the very
end of the header value. -/
theorem c1_code_eval_on_claim_inputs :
    check_accept_encoding (some [98, 114]) = .ok ∧
    check_accept_encoding (some [98, 114, 59, 113, 61, 49]) = .declined ∧
    check_accept_encoding (some [98, 114, 59, 113, 61, 48, 46, 53]) = .declined ∧
    check_accept_encoding (some [98, 114, 59, 113, 61, 48, 46, 48, 48, 49]) = .declined ∧
    check_accept_encoding (some [103, 122, 105, 112, 59, 113, 61, 48, 44, 32, 98, 114]) = .ok ∧
    check_accept_encoding (some [98, 114, 44, 32, 103, 122, 105, 112]) = .declined ∧
    check_accept_encoding (some [98, 114, 59, 113, 61, 48]) = .declined ∧
    check_accept_encoding (some [98, 114, 59, 113, 61, 48, 46, 48]) = .declined ∧
    check_accept_encoding (some [98, 114, 59, 113, 61, 48, 46, 48, 48]) = .declined ∧
    check_accept_encoding (some [98, 114, 59, 113, 61, 48, 46, 48, 48, 48]) = .declined ∧
    check_accept_encoding none = .declined := by
  decide

/-- C4: the code does not reject "br;q=0, br"; it accepts it, because the
only occurrence of the token the search can match is the final bare "br"
(the q=0 clause after the first occurrence is never parsed).  For contrast,
"br;q=0" alone is declined. -/
theorem c4_code_eval_qzero_then_bare :
    check_accept_encoding (some [98, 114, 59, 113, 61, 48, 44, 32, 98, 114]) = .ok ∧
    check_accept_encoding (some [98, 114, 59, 113, 61, 48]) = .declined := by
  decide

/-- C2 counterexample: at bytes_in = 1005, bytes_out = 1000 the module
formats "1.01" (bytes are [49,46,48,49]), not the "1.00" the claim states. -/
theorem c2_counterexample_1005_1000 :
    ngx_http_brotli_ratio_variable (some ⟨true, 1005, 1000⟩) = some [49, 46, 48, 49] ∧
    some [49, 46, 48, 49] ≠ some [49, 46, 48, 48] := by
  constructor
  · rfl
  · decide

/-- C2 amended: for a successful session with bytes_out positive (and the
uint64 product not overflowing), the variable is the decimal rendering of
bytes_in/bytes_out truncated to three decimal digits and rounded half-up to
two (so 1000/333 gives "3.00" and 1005/1000 gives "1.01"); without success,
with bytes_out = 0, or without a brotli context the variable is absent. -/
theorem c2_amended_ratio_format :
    (∀ bi bo : Nat, 0 < bo → bi * 1000 < 2 ^ 64 →
      ngx_http_brotli_ratio_variable (some ⟨true, bi, bo⟩) =
        some (decDigits ((bi * 1000 / bo + 5) / 10 / 100) ++ [46] ++
              fmt2 ((bi * 1000 / bo + 5) / 10 % 100))) ∧
    (∀ c : RatioCtx, c.success = false ∨ c.bytes_out = 0 →
      ngx_http_brotli_ratio_variable (some c) = none) ∧
    ngx_http_brotli_ratio_variable none = none := by
  refine ⟨?_, ?_, rfl⟩
  · intro bi bo h1 h2
    have hmod : bi * 1000 % 2 ^ 64 = bi * 1000 := Nat.mod_eq_of_lt h2
    simp only [ngx_http_brotli_ratio_variable, hmod]
    rw [if_neg (by simp; omega)]
    rw [ratioPair_eq]
  · intro c hc
    simp only [ngx_http_brotli_ratio_variable]
    rw [if_pos]
    rcases hc with hc | hc
    · exact Or.inl hc
    · exact Or.inr hc

/-- C2 amended witness: the general formula applied at bytes_in = 1000,
bytes_out = 333, where the rendered bytes are "3.00". -/
theorem c2_amended_ratio_format_witness :
    ngx_http_brotli_ratio_variable (some ⟨true, 1000, 333⟩) =
      some (decDigits ((1000 * 1000 / 333 + 5) / 10 / 100) ++ [46] ++
            fmt2 ((1000 * 1000 / 333 + 5) / 10 % 100)) ∧
    decDigits ((1000 * 1000 / 333 + 5) / 10 / 100) ++ [46] ++
        fmt2 ((1000 * 1000 / 333 + 5) / 10 % 100) = [51, 46, 48, 48] :=
  ⟨c2_amended_ratio_format.1 1000 333 (by decide) (by decide), by decide⟩

/-- C6: ngx_http_brotli_filter_close is idempotent: the second call returns
at once via the closed flag (same context back, no encoder call), the first
call performs at most one BrotliEncoderDestroyInstance, and the context is
closed afterwards. -/
theorem c6_close_idempotent {E : Type} (ctx : BrotliCtx E) :
    (ngx_http_brotli_filter_close (ngx_http_brotli_filter_close ctx).1).1
        = (ngx_http_brotli_filter_close ctx).1 ∧
    (ngx_http_brotli_filter_close (ngx_http_brotli_filter_close ctx).1).2 = [] ∧
    ((ngx_http_brotli_filter_close ctx).2 = []
        ∨ (ngx_http_brotli_filter_close ctx).2 = [.destroy]) ∧
    (ngx_http_brotli_filter_close ctx).1.closed = true := by
  by_cases hc : ctx.closed
  · cases he : ctx.encoder <;> simp [ngx_http_brotli_filter_close, hc, he]
  · cases he : ctx.encoder <;> simp [ngx_http_brotli_filter_close, hc, he]

/-- C9: on a subrequest (is_main false) both negotiation entry points
decline immediately, leaving the request untouched (in particular
gzip_tested and gzip_ok are not set), whatever the Accept-Encoding header
holds. -/
theorem c9_subrequest_declined (sreq : StaticRequest) (freq : FilterRequest)
    (hs : sreq.is_main = false) (hf : freq.is_main = false) :
    check_eligility sreq = (.declined, sreq) ∧
    ngx_http_brotli_check_request freq = (.declined, freq) := by
  constructor
  · simp [check_eligility, hs]
  · simp [ngx_http_brotli_check_request, hf]

/-- A concrete subrequest for the static module side. -/
def sampleSubStaticRequest : StaticRequest :=
  { method := 2, uri := [47, 97], is_main := false, accept_encoding := some [98, 114]
    gzip_vary := false, gzip_tested := false, gzip_ok := false
    error_page := false, root_tested := false, header_only := false }

/-- A concrete subrequest for the filter module side. -/
def sampleSubFilterRequest : FilterRequest :=
  { is_main := false, accept_encoding := some [98, 114]
    gzip_vary := false, gzip_tested := false, gzip_ok := false
    status := 200, header_only := false, ce_present := false, content_length_n := -1 }

/-- C9 witness: the subrequest gate applied to concrete subrequests carrying
an Accept-Encoding value the negotiation would otherwise accept. -/
theorem c9_subrequest_declined_witness :
    check_eligility sampleSubStaticRequest = (.declined, sampleSubStaticRequest) ∧
    ngx_http_brotli_check_request sampleSubFilterRequest
      = (.declined, sampleSubFilterRequest) :=
  c9_subrequest_declined sampleSubStaticRequest sampleSubFilterRequest rfl rfl

/-- C3 counterexample: "br;q=0.0001" carries the token "br" at the start of
the value (boundary-valid: start-of-value before, ";" after) followed by a
q-value clause whose fraction contains the nonzero digit 1, yet the check
declines it (the claim says such a value must be accepted). -/
theorem c3_counterexample_qnonzero_rejected :
    check_accept_encoding (some [98, 114, 59, 113, 61, 48, 46, 48, 48, 48, 49]) = .declined ∧
    NgxRet.declined ≠ NgxRet.ok := by
  decide

/-- C3 amended witness: the characterization applied to the NUL-free value
"gzip, br", which ends with the boundary-delimited token and is accepted. -/
theorem c3_amended_accept_iff_trailing_token_witness :
    check_accept_encoding (some [103, 122, 105, 112, 44, 32, 98, 114]) = .ok :=
  (c3_amended_accept_iff_trailing_token [103, 122, 105, 112, 44, 32, 98, 114]
    (by decide)).mpr (by unfold brTokenAtEnd; decide)

/-- serveSibling leaves the request unchanged except possibly for
root_tested. -/
theorem serveSibling_req_cases (host : StaticHost) (req : StaticRequest) :
    (serveSibling host req).req = req ∨
    (serveSibling host req).req = { req with root_tested := !req.error_page } := by
  unfold serveSibling
  split
  · exact Or.inl rfl
  · split
    · exact Or.inl rfl
    · split
      · split
        · exact Or.inl rfl
        · exact Or.inl rfl
      · split
        · exact Or.inl rfl
        · split
          · exact Or.inl rfl
          · repeat' split
            all_goals exact Or.inr rfl

/-- serveSibling never touches the negotiation markers or the URI of the
request. -/
theorem serveSibling_preserves (host : StaticHost) (req : StaticRequest) :
    (serveSibling host req).req.gzip_vary = req.gzip_vary ∧
    (serveSibling host req).req.gzip_tested = req.gzip_tested ∧
    (serveSibling host req).req.gzip_ok = req.gzip_ok ∧
    (serveSibling host req).req.uri = req.uri := by
  rcases serveSibling_req_cases host req with h | h <;> rw [h] <;> exact ⟨rfl, rfl, rfl, rfl⟩

/-- check_eligility never touches gzip_vary or the URI. -/
theorem check_eligility_preserves (r : StaticRequest) :
    (check_eligility r).2.gzip_vary = r.gzip_vary ∧ (check_eligility r).2.uri = r.uri := by
  unfold check_eligility
  split
  · exact ⟨rfl, rfl⟩
  · split
    · exact ⟨rfl, rfl⟩
    · exact ⟨rfl, rfl⟩

/-- ngx_http_brotli_check_request never touches gzip_vary. -/
theorem check_request_preserves (r : FilterRequest) :
    (ngx_http_brotli_check_request r).2.gzip_vary = r.gzip_vary := by
  unfold ngx_http_brotli_check_request
  split
  · rfl
  · split
    · rfl
    · rfl

/-- Downstream consuming nothing leaves the output buffer unchanged. -/
theorem drainOut_zero (b : OutBuf) (h : b.pos ≤ b.last) : drainOut b 0 = b := by
  unfold drainOut
  have hmin : min (b.pos + 0) b.last = b.pos := by omega
  rw [hmin]

/-- C5: while a previously staged output chunk is not fully consumed
(output_busy with a nonempty buffer) and the downstream filter call makes no
progress (consumes 0 bytes, answering NGX_OK or NGX_AGAIN), one body filter
invocation returns NGX_AGAIN with an empty encoder-call trace; the input
chain is only extended (in order) by the incoming links, the staged output
buffer, counters, encoder and phase flags are unchanged, so the filter is
re-entered later with the same session state. -/
theorem c5_backpressure_suspends {E : Type} (enc : EncoderModel E) (create : Option E)
    (e : E) (ctx : BrotliCtx E) (incoming : Option (List InBuf)) (rest : List NextResp)
    (r0 : NextRc) (f : Nat)
    (hclosed : ctx.closed = false) (hinit : ctx.initialized = true)
    (henc : ctx.encoder = some e)
    (hbusy : ctx.output_busy = true) (hready : ctx.output_ready = false)
    (hsz : 0 < ctx.out_buf.size)
    (hr : r0 = NextRc.ok ∨ r0 = NextRc.again) :
    let res := ngx_http_brotli_body_filter enc create false ctx incoming (⟨r0, 0⟩ :: rest) (f + 1)
    res.rc = .again ∧ res.trace = [] ∧
    res.ctx.in_chain = ctx.in_chain ++ incoming.getD [] ∧
    res.ctx.out_buf = ctx.out_buf ∧
    res.ctx.encoder = some e ∧
    res.ctx.bytes_in = ctx.bytes_in ∧
    res.ctx.bytes_out = ctx.bytes_out ∧
    res.ctx.output_busy = true ∧
    res.ctx.output_ready = false ∧
    res.ctx.closed = false ∧
    res.ctx.initialized = true ∧
    res.ctx.success = ctx.success ∧
    res.ctx.end_of_input = ctx.end_of_input ∧
    res.ctx.end_of_block = ctx.end_of_block := by
  have hple : ctx.out_buf.pos ≤ ctx.out_buf.last := by
    unfold OutBuf.size at hsz
    omega
  have hdz : drainOut ctx.out_buf 0 = ctx.out_buf := drainOut_zero ctx.out_buf hple
  have hsz0 : ¬(ctx.out_buf.size = 0) := by omega
  rcases hr with rfl | rfl <;> rcases incoming with _ | bufs <;>
    simp only [ngx_http_brotli_body_filter, ensure_stream_initialized, bodyLoop,
      hclosed, hinit, henc, hbusy, hready, hdz, hsz0, hsz, List.headD_cons,
      Bool.false_or, Bool.or_false, Bool.or_self, if_false, if_true, Option.getD,
      List.append_nil, ite_true, ite_false, Bool.true_or, ne_eq] <;>
    simp [hdz, hsz0, hsz]

/-- A trivial encoder instance for concrete runs. -/
def unitEncoderModel : EncoderModel Unit :=
  { hasMoreOutput := fun _ => false
    isFinished := fun _ => false
    takeOutput := fun e => (e, 0)
    compressStream := fun e _ _ => some (e, 0) }

/-- A mid-stream session with a busy, partially unconsumed output buffer. -/
def sampleBusyCtx : BrotliCtx Unit :=
  { encoder := some ()
    bytes_in := 5
    bytes_out := 4
    in_chain := [⟨3, true, false⟩]
    out_buf := { pos := 0, last := 4, last_buf := false, flush := false }
    initialized := true
    closed := false
    success := false
    output_ready := false
    output_busy := true
    end_of_input := false
    end_of_block := false
    conn_buffered := true }

/-- C5 witness: the backpressure theorem applied to a concrete busy session
whose downstream answers NGX_AGAIN without progress. -/
theorem c5_backpressure_suspends_witness :
    let res := ngx_http_brotli_body_filter unitEncoderModel (some ()) false sampleBusyCtx none
        [⟨NextRc.again, 0⟩] (0 + 1)
    res.rc = .again ∧ res.trace = [] ∧
    res.ctx.in_chain = sampleBusyCtx.in_chain ++ (none : Option (List InBuf)).getD [] ∧
    res.ctx.out_buf = sampleBusyCtx.out_buf ∧
    res.ctx.encoder = some () ∧
    res.ctx.bytes_in = sampleBusyCtx.bytes_in ∧
    res.ctx.bytes_out = sampleBusyCtx.bytes_out ∧
    res.ctx.output_busy = true ∧
    res.ctx.output_ready = false ∧
    res.ctx.closed = false ∧
    res.ctx.initialized = true ∧
    res.ctx.success = sampleBusyCtx.success ∧
    res.ctx.end_of_input = sampleBusyCtx.end_of_input ∧
    res.ctx.end_of_block = sampleBusyCtx.end_of_block :=
  c5_backpressure_suspends unitEncoderModel (some ()) () sampleBusyCtx none [] NextRc.again 0
    rfl rfl rfl rfl rfl (by decide) (Or.inr rfl)

/-- C7: with brotli_static "always", a GET or HEAD request for a
non-directory URI proceeds to map the URI and open the ".br" sibling even
with no Accept-Encoding header: negotiation is skipped entirely, and
gzip_vary, gzip_tested and gzip_ok are left exactly as they were. -/
theorem c7_always_skips_negotiation (host : StaticHost) (req : StaticRequest) (p : List Nat)
    (hm : req.method &&& (NGX_HTTP_GET ||| NGX_HTTP_HEAD) ≠ 0)
    (hu : byteAt req.uri (req.uri.length - 1) ≠ 47)
    (_hae : req.accept_encoding = none)
    (hmap : host.map_uri_to_path req.uri = some p)
    (hsym : host.disable_symlinks_ok = true) :
    (handler BROTLI_STATIC_ALWAYS host req).opened = some (p ++ kSuffix) ∧
    (handler BROTLI_STATIC_ALWAYS host req).req.gzip_vary = req.gzip_vary ∧
    (handler BROTLI_STATIC_ALWAYS host req).req.gzip_tested = req.gzip_tested ∧
    (handler BROTLI_STATIC_ALWAYS host req).req.gzip_ok = req.gzip_ok := by
  have hh : handler BROTLI_STATIC_ALWAYS host req = serveSibling host req := by
    unfold handler
    rw [if_neg hm, if_neg hu, if_neg (by decide), if_pos rfl]
  refine ⟨?_, ?_, ?_, ?_⟩
  · rw [hh]
    unfold serveSibling
    simp only [hmap, hsym, Bool.true_eq_false, if_false]
    repeat' split
    all_goals rfl
  · rw [hh]
    exact (serveSibling_preserves host req).1
  · rw [hh]
    exact (serveSibling_preserves host req).2.1
  · rw [hh]
    exact (serveSibling_preserves host req).2.2.1

/-- On the serving path the response is fully determined by the opened
sibling and the original URI: serveSibling only returns served after the
sibling opened as a regular non-directory file and every header step
succeeded, and the response it builds carries exactly the sibling metadata
and the content type of the original URI. -/
theorem serveSibling_served (host : StaticHost) (r : StaticRequest) (resp : BrResponse)
    (code : Int) (h : (serveSibling host r).res = .served resp code) :
    ∃ p contents mtime,
      host.map_uri_to_path r.uri = some p ∧
      host.open_cached_file (p ++ kSuffix) = .ok contents mtime false true ∧
      resp = { status := 200, content_length := contents.length, last_modified := mtime,
               etag := host.etag_of contents.length mtime, content_encoding := kEncoding,
               content_type := host.content_type_of r.uri, body := contents } := by
  unfold serveSibling at h
  split at h
  · simp at h
  · rename_i p hmap
    split at h
    · simp at h
    · split at h
      · split at h <;> simp at h
      · rename_i contents mtime is_dir is_file hopen
        split at h
        · simp at h
        · rename_i hdir
          split at h
          · simp at h
          · rename_i hfile
            split at h
            · simp at h
            · split at h
              · simp at h
              · split at h
                · simp at h
                · split at h
                  · simp at h
                  · split at h
                    · simp at h
                    · split at h
                      · simp at h
                      · simp only [HandlerRes.served.injEq] at h
                        obtain ⟨hresp, _⟩ := h
                        have hd : is_dir = false := by
                          cases is_dir
                          · rfl
                          · exact absurd rfl hdir
                        have hf : is_file = true := by
                          cases is_file
                          · exact absurd rfl hfile
                          · rfl
                        rw [hd, hf] at hopen
                        exact ⟨p, contents, mtime, hmap, hopen, hresp.symm⟩

/-- C8: whenever the static handler serves the sibling file, the emitted
response has status 200, content length equal to the sibling size, the
sibling mtime as last-modified, an etag computed from that metadata, the
Content-Encoding value "br", a content type computed from the original
(unsuffixed) request URI, and the sibling bytes verbatim as the body. -/
theorem c8_served_response_shape (enable : Nat) (host : StaticHost) (req : StaticRequest)
    (resp : BrResponse) (code : Int)
    (h : (handler enable host req).res = .served resp code) :
    ∃ p contents mtime,
      host.map_uri_to_path req.uri = some p ∧
      host.open_cached_file (p ++ kSuffix) = .ok contents mtime false true ∧
      resp.status = 200 ∧ resp.content_length = contents.length ∧
      resp.last_modified = mtime ∧ resp.etag = host.etag_of contents.length mtime ∧
      resp.content_encoding = kEncoding ∧
      resp.content_type = host.content_type_of req.uri ∧
      resp.body = contents := by
  unfold handler at h
  split at h
  · simp at h
  · split at h
    · simp at h
    · split at h
      · simp at h
      · split at h
        · obtain ⟨p, c, m, hmap, hopen, hresp⟩ := serveSibling_served host req resp code h
          subst hresp
          exact ⟨p, c, m, hmap, hopen, rfl, rfl, rfl, rfl, rfl, rfl, rfl⟩
        · split at h
          · simp at h
          · obtain ⟨p, c, m, hmap, hopen, hresp⟩ :=
              serveSibling_served host (check_eligility { req with gzip_vary := true }).2
                resp code h
            have huri : (check_eligility { req with gzip_vary := true }).2.uri = req.uri :=
              (check_eligility_preserves _).2
            rw [huri] at hmap
            rw [huri] at hresp
            subst hresp
            exact ⟨p, c, m, hmap, hopen, rfl, rfl, rfl, rfl, rfl, rfl, rfl⟩

/-- C10: in automatic ("on") mode both components set gzip_vary before
evaluating negotiation: every GET/HEAD non-directory request leaves the
static handler with gzip_vary set, and every response passing the header
filter front checks (enabled, status 200/403/404, not header-only, no prior
Content-Encoding, long enough, eligible MIME type) leaves the header filter
with gzip_vary set - in both cases even when the negotiation then declines. -/
theorem c10_vary_set_before_negotiation :
    (∀ (host : StaticHost) (req : StaticRequest),
      req.method &&& (NGX_HTTP_GET ||| NGX_HTTP_HEAD) ≠ 0 →
      byteAt req.uri (req.uri.length - 1) ≠ 47 →
      (handler BROTLI_STATIC_ON host req).req.gzip_vary = true) ∧
    (∀ (conf : FilterConf) (type_ok alloc_ok : Bool) (r : FilterRequest),
      conf.enable = true →
      ¬(r.status ≠ 200 ∧ r.status ≠ 403 ∧ r.status ≠ 404) →
      r.header_only = false →
      r.ce_present = false →
      ¬(r.content_length_n ≠ -1 ∧ r.content_length_n < conf.min_length) →
      type_ok = true →
      (ngx_http_brotli_header_filter conf type_ok alloc_ok r).2.gzip_vary = true) := by
  constructor
  · intro host req hm hu
    unfold handler
    rw [if_neg hm, if_neg hu, if_neg (by decide), if_neg (by decide)]
    split
    · exact (check_eligility_preserves _).1
    · rw [(serveSibling_preserves host _).1]
      exact (check_eligility_preserves _).1
  · intro conf type_ok alloc_ok r hen hst hho hce hlen htk
    unfold ngx_http_brotli_header_filter
    rw [if_neg (by simp [hen]), if_neg hst, if_neg (by simp [hho]), if_neg (by simp [hce]),
      if_neg hlen, if_neg (by simp [htk])]
    split
    · exact check_request_preserves _
    · split
      · exact check_request_preserves _
      · exact check_request_preserves _

/-- A fully cooperative host whose file cache holds a 3-byte sibling. -/
def sampleHost : StaticHost :=
  { map_uri_to_path := fun _ => some [47, 97]
    disable_symlinks_ok := true
    open_cached_file := fun _ => .ok [10, 20, 30] 7 false true
    discard_request_body_rc := 0
    set_etag_ok := true
    etag_of := fun n _ => [n]
    set_content_type_ok := true
    content_type_of := fun _ => [116, 120, 116]
    push_header_ok := true
    alloc_buf_ok := true
    send_header_rc := 0
    output_filter_rc := 0 }

/-- A main GET request for "/x" carrying no Accept-Encoding header. -/
def sampleNoAeRequest : StaticRequest :=
  { method := 2, uri := [47, 120], is_main := true, accept_encoding := none
    gzip_vary := false, gzip_tested := false, gzip_ok := false
    error_page := false, root_tested := false, header_only := false }

/-- C7 witness: in "always" mode the concrete no-Accept-Encoding GET request
maps and opens "/a.br" with all negotiation markers untouched. -/
theorem c7_always_skips_negotiation_witness :
    (handler BROTLI_STATIC_ALWAYS sampleHost sampleNoAeRequest).opened
        = some ([47, 97] ++ kSuffix) ∧
    (handler BROTLI_STATIC_ALWAYS sampleHost sampleNoAeRequest).req.gzip_vary
        = sampleNoAeRequest.gzip_vary ∧
    (handler BROTLI_STATIC_ALWAYS sampleHost sampleNoAeRequest).req.gzip_tested
        = sampleNoAeRequest.gzip_tested ∧
    (handler BROTLI_STATIC_ALWAYS sampleHost sampleNoAeRequest).req.gzip_ok
        = sampleNoAeRequest.gzip_ok :=
  c7_always_skips_negotiation sampleHost sampleNoAeRequest [47, 97]
    (by decide) (by decide) rfl rfl rfl

/-- The response the sample host serves. -/
def sampleServedResponse : BrResponse :=
  { status := 200, content_length := 3, last_modified := 7, etag := [3]
    content_encoding := kEncoding, content_type := [116, 120, 116], body := [10, 20, 30] }

/-- C8 witness: the shape theorem applied to a concrete served response. -/
theorem c8_served_response_shape_witness :
    ∃ p contents mtime,
      sampleHost.map_uri_to_path sampleNoAeRequest.uri = some p ∧
      sampleHost.open_cached_file (p ++ kSuffix) = .ok contents mtime false true ∧
      sampleServedResponse.status = 200 ∧
      sampleServedResponse.content_length = contents.length ∧
      sampleServedResponse.last_modified = mtime ∧
      sampleServedResponse.etag = sampleHost.etag_of contents.length mtime ∧
      sampleServedResponse.content_encoding = kEncoding ∧
      sampleServedResponse.content_type = sampleHost.content_type_of sampleNoAeRequest.uri ∧
      sampleServedResponse.body = contents :=
  c8_served_response_shape BROTLI_STATIC_ALWAYS sampleHost sampleNoAeRequest
    sampleServedResponse 0 rfl

/-- An otherwise-eligible response for the header filter whose request has no
Accept-Encoding header, so negotiation declines. -/
def sampleNoAeFilterRequest : FilterRequest :=
  { is_main := true, accept_encoding := none
    gzip_vary := false, gzip_tested := false, gzip_ok := false
    status := 200, header_only := false, ce_present := false, content_length_n := -1 }

/-- C10 witness: both parts applied to concrete otherwise-eligible requests
without an Accept-Encoding header; gzip_vary ends up set although the
negotiation declines. -/
theorem c10_vary_set_before_negotiation_witness :
    (handler BROTLI_STATIC_ON sampleHost sampleNoAeRequest).req.gzip_vary = true ∧
    (ngx_http_brotli_header_filter ⟨true, 20⟩ true true sampleNoAeFilterRequest).2.gzip_vary
        = true :=
  ⟨c10_vary_set_before_negotiation.1 sampleHost sampleNoAeRequest (by decide) (by decide),
   c10_vary_set_before_negotiation.2 ⟨true, 20⟩ true true sampleNoAeFilterRequest rfl
     (by decide) rfl rfl (by decide) rfl⟩
